import Mathlib

/-!
Shallow embedding of `multi_cloud_object_transfer` (Python) and proofs about it.

Source files embedded here:
* `src/multi_cloud_object_transfer/utils.py` — `id_generator`
* `src/multi_cloud_object_transfer/cloud_transfer.py` — the chunked download script
* `src/multi_cloud_object_transfer/storage_connections.py` — `azure_url_generator`
* `src/multi_cloud_object_transfer/cloud_transfer_s3_azure.py` — `s3_to_azure`, `azure_to_s3`

Modelling conventions: the destination namespace is a fixed predicate
`String → Bool` (single-caller semantics); the random id supply of
`random.choice` is an index oracle; the unbounded `while exists` loops are
given explicit fuel and return `Option` (`none` = fuel exhausted, a model
artifact only); side effects (existence checks, deletes, HTTP GET, uploads)
are recorded in an event trace.
-/

/-! ## utils.py: id_generator -/

/-- `string.ascii_uppercase`. -/
def ascii_uppercase : List Char := "ABCDEFGHIJKLMNOPQRSTUVWXYZ".toList

/-- `string.digits`. -/
def ascii_digits : List Char := "0123456789".toList

/-- `string.ascii_lowercase`. -/
def ascii_lowercase : List Char := "abcdefghijklmnopqrstuvwxyz".toList

/-- The default `chars` argument of `id_generator`:
`string.ascii_uppercase + string.digits + string.ascii_lowercase`. -/
def id_chars : List Char := ascii_uppercase ++ ascii_digits ++ ascii_lowercase

theorem id_chars_length : id_chars.length = 62 := rfl

/-- `utils.id_generator(size, chars)` with the default `chars`:
`''.join(random.choice(chars) for _ in range(size))`.  The randomness of
`random.choice` is an index oracle `pick`. -/
def id_generator (size : Nat) (pick : Nat → Fin 62) : List Char :=
  (List.range size).map fun i => id_chars.get (Fin.cast id_chars_length.symm (pick i))

/-! ## cloud_transfer.py: the chunked download loop -/

/-- Fueled worker for `response.iter_content(chunk_size=C)`: yields successive
non-empty chunks of at most `C` bytes until the stream is exhausted. -/
def iterContentAux (C : Nat) : Nat → List Nat → List (List Nat)
  | 0, _ => []
  | _, [] => []
  | fuel + 1, a :: l => ((a :: l).take C) :: iterContentAux C fuel ((a :: l).drop C)

/-- `response.iter_content(chunk_size=C)` over a body of `L` bytes.  The fuel
`body.length` suffices for any positive `C`. -/
def iter_content (C : Nat) (body : List Nat) : List (List Nat) :=
  iterContentAux C body.length body

theorem iterContentAux_flatten (C : Nat) (hC : 0 < C) :
    ∀ (fuel : Nat) (l : List Nat), l.length ≤ fuel →
      (iterContentAux C fuel l).flatten = l := by
  intro fuel
  induction fuel with
  | zero =>
    intro l hl
    have : l = [] := List.eq_nil_of_length_eq_zero (Nat.le_zero.mp hl)
    subst this; rfl
  | succ n ih =>
    intro l hl
    cases l with
    | nil => rfl
    | cons a t =>
      have hdrop : ((a :: t).drop C).length ≤ n := by
        rw [List.length_drop]
        simp only [List.length_cons] at hl ⊢
        omega
      show (List.take C (a :: t) :: iterContentAux C n (List.drop C (a :: t))).flatten
          = a :: t
      rw [List.flatten_cons, ih _ hdrop, List.take_append_drop]

theorem iterContentAux_length (C : Nat) (hC : 0 < C) :
    ∀ (fuel : Nat) (l : List Nat), l.length ≤ fuel →
      (iterContentAux C fuel l).length = (l.length + C - 1) / C := by
  intro fuel
  induction fuel with
  | zero =>
    intro l hl
    have : l = [] := List.eq_nil_of_length_eq_zero (Nat.le_zero.mp hl)
    subst this
    simp [iterContentAux, Nat.div_eq_of_lt (by omega : C - 1 < C)]
  | succ n ih =>
    intro l hl
    cases l with
    | nil => simp [iterContentAux, Nat.div_eq_of_lt (by omega : C - 1 < C)]
    | cons a t =>
      have hdrop : ((a :: t).drop C).length ≤ n := by
        rw [List.length_drop]
        simp only [List.length_cons] at hl ⊢
        omega
      have hm1 : 1 ≤ (a :: t).length := by simp
      show (List.take C (a :: t) :: iterContentAux C n (List.drop C (a :: t))).length
          = ((a :: t).length + C - 1) / C
      rw [List.length_cons, ih _ hdrop, List.length_drop]
      generalize (a :: t).length = m at hm1
      rcases Nat.lt_or_ge C m with h | h
      · -- more than one chunk remains
        have h1 : m - C + C - 1 = m - 1 := by omega
        have h2 : m + C - 1 = (m - 1) + C := by omega
        rw [h1, h2, Nat.add_div_right _ hC]
      · -- last chunk
        have h1 : m - C = 0 := by omega
        have h2 : (0 + C - 1) / C = 0 := Nat.div_eq_of_lt (by omega)
        rw [h1, h2]
        have h3 : (m + C - 1) / C = 1 :=
          Nat.div_eq_of_lt_le (by omega) (by omega)
        omega

theorem iterContentAux_chunks (C : Nat) (hC : 0 < C) :
    ∀ (fuel : Nat) (l : List Nat) (c : List Nat),
      c ∈ iterContentAux C fuel l → c ≠ [] ∧ c.length ≤ C := by
  intro fuel
  induction fuel with
  | zero => intro l c hc; simp [iterContentAux] at hc
  | succ n ih =>
    intro l c hc
    cases l with
    | nil => simp [iterContentAux] at hc
    | cons a t =>
      simp only [iterContentAux, List.mem_cons] at hc
      rcases hc with h | h
      · subst h
        constructor
        · cases C with
          | zero => omega
          | succ m => simp [List.take]
        · simp [List.length_take]
      · exact ih _ _ h

/-! ## os.path.splitext (posixpath), used to form suffixed candidate names -/

/-- Python `str.rfind`: index of the last occurrence, `none` if absent. -/
def rfindIdx (l : List Char) (c : Char) : Option Nat :=
  match (l.reverse.findIdx? (fun x => x = c)) with
  | none => none
  | some j => some (l.length - 1 - j)

/-- `os.path.splitext(p)` (posix): split at the last dot, except that dots
leading the basename (after the last `/`) start no extension. -/
def splitext (p : String) : String × String :=
  let l := p.toList
  let fStart : Nat :=
    match rfindIdx l '/' with
    | none => 0
    | some s => s + 1
  match rfindIdx l '.' with
  | none => (p, "")
  | some d =>
    if fStart ≤ d then
      if ((l.drop fStart).take (d - fStart)).any (fun x => x ≠ '.') then
        (⟨l.take d⟩, ⟨l.drop d⟩)
      else (p, "")
    else (p, "")

/-- The renamed candidate built inside both collision loops:
`f"{file_name}" "_" f"{random_id}" f"{file_extension}"` where
`file_name, file_extension = os.path.splitext(original_name)`. -/
def suffixed_name (original : String) (random_id : String) : String :=
  (splitext original).1 ++ "_" ++ random_id ++ (splitext original).2

example : splitext "report.pdf" = ("report", ".pdf") := by decide
example : suffixed_name "report.pdf" "Ab3xYz" = "report_Ab3xYz.pdf" := by decide
example : splitext ".bashrc" = (".bashrc", "") := by decide

/-! ## Event traces for the two transfer functions -/

/-- One observable side effect of a transfer run, in program order. -/
inductive Ev where
  /-- `s3_client.generate_presigned_url(...)` succeeded -/
  | presign
  /-- `azure_url_generator(...)`: `generate_blob_sas` with
  `expiry = utcnow + timedelta(minutes=t)` -/
  | sasGenerate (t : Nat)
  /-- `requests.get(object_url, stream=True)` returned this HTTP status -/
  | httpGet (status : Nat)
  /-- destination existence check (`blob_client.exists()` /
  `s3_client.head_object`) and its outcome -/
  | dstCheck (name : String) (result : Bool)
  /-- destination `blob_client.delete_blob()` (s3_to_azure overwrite branch) -/
  | deleteDest (name : String)
  /-- `blob_client.upload_blob(object_stream)` -/
  | uploadBlob (name : String)
  /-- `s3_client.upload_fileobj(object_stream.raw, bucket, key, ...)` -/
  | uploadFileobj (key : String)
  /-- `s3_client.delete_object(Bucket=…, Key=…)` on the source (s3_to_azure) -/
  | deleteSource (key : String)
  /-- source-side `blob_client.exists()` before the source delete (azure_to_s3) -/
  | srcCheck (name : String) (result : Bool)
  /-- source-side `blob_client.delete_blob()` (azure_to_s3) -/
  | deleteSrcBlob (name : String)
deriving DecidableEq, Repr

/-- Outcome of a transfer function call: Python `return` of `None` after a
printed error, an uncaught exception, or the returned `information` dict. -/
inductive Outcome (α : Type) where
  | returnedNone
  | raised
  | ok (info : α)
deriving DecidableEq, Repr

/-- The `information` dict returned by `s3_to_azure` (lines 207-213). -/
structure S3AzureInfo where
  azure_storage_container_name : String
  azure_storage_blob_name : String
  aws_storage_bucket_name : String
  aws_storage_object_key : String
deriving DecidableEq, Repr

/-- The `information` dict returned by `azure_to_s3` (lines 391-397). -/
structure AzureS3Info where
  aws_storage_bucket_name : String
  aws_storage_object_key : String
  azure_storage_container_name : String
  azure_storage_blob_name : String
deriving DecidableEq, Repr

/-! ## s3_to_azure (cloud_transfer_s3_azure.py lines 32-213) -/

/-- The non-overwrite collision loop of `s3_to_azure` (lines 167-186):
check `blob_client.exists()` on the current candidate; while it exists,
rename to `suffixed_name original (ids i)` with a fresh random id and check
again.  Returns the trace of existence checks and the final name; `none`
when the fuel runs out (the Python loop is unbounded). -/
def s3_collision_loop (ex : String → Bool) (original : String) (ids : Nat → String) :
    String → Nat → Nat → Option (List Ev × String)
  | current, _, 0 =>
    if ex current then none else some ([Ev.dstCheck current false], current)
  | current, i, fuel + 1 =>
    if ex current then
      match s3_collision_loop ex original ids (suffixed_name original (ids i)) (i + 1) fuel with
      | none => none
      | some (evs, n) => some (Ev.dstCheck current true :: evs, n)
    else some ([Ev.dstCheck current false], current)

/-- `s3_to_azure` from the presigned-URL step onward: collision resolution
(lines 159-186), `requests.get` (189), `upload_blob` (190), conditional
source delete (197-201) and the `information` dict (207-213).
`presignEvs` carries the events of the URL step; `ex` is the Azure container
namespace, `uploadOk` whether `upload_blob` succeeds. -/
def s3_to_azure_rest (container bucket aws_object_key name0 : String)
    (presignEvs : List Ev) (overwrite deleteAfter : Bool)
    (ex : String → Bool) (ids : Nat → String) (status : Nat) (uploadOk : Bool)
    (fuel : Nat) : Option (List Ev × Outcome S3AzureInfo) :=
  let res : Option (List Ev × String) :=
    if overwrite then
      if ex name0 then some ([Ev.dstCheck name0 true, Ev.deleteDest name0], name0)
      else some ([Ev.dstCheck name0 false], name0)
    else s3_collision_loop ex name0 ids name0 0 fuel
  match res with
  | none => none
  | some (resEvs, final) =>
    let preEvs := presignEvs ++ resEvs ++ [Ev.httpGet status, Ev.uploadBlob final]
    if uploadOk then
      some (preEvs ++ (if deleteAfter then [Ev.deleteSource aws_object_key] else []),
        Outcome.ok
          { azure_storage_container_name := container
            azure_storage_blob_name := final
            aws_storage_bucket_name := bucket
            aws_storage_object_key := aws_object_key })
    else some (preEvs, Outcome.raised)

/-- `s3_to_azure`.  `blobName?` is `azure_storage_blob_name` (default `None`,
lines 125-126), `public` is `aws_public_object` (skips the presigned URL),
`presignOk` whether `generate_presigned_url` raises `ClientError` (lines
139-150: on error the function prints and returns `None`). -/
def s3_to_azure_run (container bucket aws_object_key : String)
    (blobName? : Option String) (public presignOk overwrite deleteAfter : Bool)
    (ex : String → Bool) (ids : Nat → String) (status : Nat) (uploadOk : Bool)
    (fuel : Nat) : Option (List Ev × Outcome S3AzureInfo) :=
  let name0 := blobName?.getD aws_object_key
  if public then
    s3_to_azure_rest container bucket aws_object_key name0 [] overwrite deleteAfter
      ex ids status uploadOk fuel
  else if presignOk then
    s3_to_azure_rest container bucket aws_object_key name0 [Ev.presign] overwrite deleteAfter
      ex ids status uploadOk fuel
  else some ([Ev.presign], Outcome.returnedNone)

/-! ## azure_to_s3 (cloud_transfer_s3_azure.py lines 216-397) -/

/-- The non-overwrite collision loop of `azure_to_s3` (lines 340-358):
`exists = True; while exists: try head_object(current) → rename with a fresh
random id; except ClientError → exists = False`.  With the namespace a fixed
predicate, `head_object` succeeds exactly when the key exists, so the loop
checks the current candidate and renames while the check succeeds. -/
def azure_head_loop (ex : String → Bool) (original : String) (ids : Nat → String) :
    String → Nat → Nat → Option (List Ev × String)
  | current, _, 0 =>
    if ex current then none else some ([Ev.dstCheck current false], current)
  | current, i, fuel + 1 =>
    if ex current then
      match azure_head_loop ex original ids (suffixed_name original (ids i)) (i + 1) fuel with
      | none => none
      | some (evs, n) => some (Ev.dstCheck current true :: evs, n)
    else some ([Ev.dstCheck current false], current)

/-- `azure_to_s3`.  In program order: `azure_url_generator` (line 311, the SAS
expiry is `timedelta(minutes=expiration)`), `requests.get` (320), the
`aws_object_key` default (323-324), the collision loop only when
`aws_storage_key_overwrite` is `False` (340-358; the `True` case does
nothing), `upload_fileobj` (361-366), and when
`azure_storage_delete_after_transfer` the guarded source delete
(374-389: `if blob_client.exists(): delete_blob()`).  `exDst` is the S3
bucket namespace, `exSrc` the Azure source namespace. -/
def azure_to_s3_run (container bucket azure_storage_blob_name : String)
    (awsKey? : Option String) (overwrite deleteAfter : Bool)
    (exDst : String → Bool) (exSrc : String → Bool) (ids : Nat → String)
    (status : Nat) (uploadOk : Bool) (expiration : Nat) (fuel : Nat) :
    Option (List Ev × Outcome AzureS3Info) :=
  let urlEvs := [Ev.sasGenerate expiration, Ev.httpGet status]
  let key0 := awsKey?.getD azure_storage_blob_name
  let res : Option (List Ev × String) :=
    if overwrite then some ([], key0)
    else azure_head_loop exDst key0 ids key0 0 fuel
  match res with
  | none => none
  | some (resEvs, final) =>
    let preEvs := urlEvs ++ resEvs ++ [Ev.uploadFileobj final]
    if uploadOk then
      let delEvs :=
        if deleteAfter then
          if exSrc azure_storage_blob_name then
            [Ev.srcCheck azure_storage_blob_name true,
             Ev.deleteSrcBlob azure_storage_blob_name]
          else [Ev.srcCheck azure_storage_blob_name false]
        else []
      some (preEvs ++ delEvs,
        Outcome.ok
          { aws_storage_bucket_name := bucket
            aws_storage_object_key := final
            azure_storage_container_name := container
            azure_storage_blob_name := azure_storage_blob_name })
    else some (preEvs, Outcome.raised)

/-! ## Exception-level view of the two collision-resolution blocks

The pure models above fix the namespace oracle to a `Bool`-valued predicate.
To reason about what each function does with an exception raised *by* the
existence check or the delete, the same source lines are translated again
with fallible oracles.  For `azure_to_s3`, `head_object` has three outcomes:
it returns (the key exists), it raises `ClientError` (which lines 344-358
catch and turn into `exists = False`), or it raises some other exception
(uncaught). -/

/-- Outcome of one `s3_client.head_object` call. -/
inductive HeadResult where
  | success
  | clientError
  | otherExc
deriving DecidableEq, Repr

/-- Lines 340-358 of `azure_to_s3` with the exception behaviour of
`head_object` explicit: `ClientError` is caught by the `except ClientError`
clause and ends the loop with the current candidate; any other exception
propagates (`Except.error ()`). -/
def azure_head_loop_exc (head : String → HeadResult) (original : String)
    (ids : Nat → String) : String → Nat → Nat → Option (Except Unit String)
  | current, i, fuel =>
    match head current with
    | HeadResult.clientError => some (Except.ok current)
    | HeadResult.otherExc => some (Except.error ())
    | HeadResult.success =>
      match fuel with
      | 0 => none
      | fuel + 1 =>
        azure_head_loop_exc head original ids (suffixed_name original (ids i)) (i + 1) fuel

/-- Lines 167-186 of `s3_to_azure` (the non-overwrite loop) with a fallible
`blob_client.exists()`: the call is not inside a `try`, so any exception it
raises propagates (`Except.error ()`). -/
def s3_collision_loop_exc (ex : String → Except Unit Bool) (original : String)
    (ids : Nat → String) : String → Nat → Nat → Option (Except Unit String)
  | current, i, fuel =>
    match ex current with
    | Except.error e => some (Except.error e)
    | Except.ok true =>
      match fuel with
      | 0 => none
      | fuel + 1 =>
        s3_collision_loop_exc ex original ids (suffixed_name original (ids i)) (i + 1) fuel
    | Except.ok false => some (Except.ok current)

/-- Lines 162-186 of `s3_to_azure` with fallible collaborators: neither
`blob_client.exists()` nor `blob_client.delete_blob()` is inside a `try`,
so any exception they raise propagates (`Except.error ()`). -/
def s3_resolve_exc (ex : String → Except Unit Bool) (del : String → Except Unit Unit)
    (overwrite : Bool) (name0 : String) (ids : Nat → String) (fuel : Nat) :
    Option (Except Unit String) :=
  if overwrite then
    match ex name0 with
    | Except.error e => some (Except.error e)
    | Except.ok true =>
      match del name0 with
      | Except.error e => some (Except.error e)
      | Except.ok _ => some (Except.ok name0)
    | Except.ok false => some (Except.ok name0)
  else s3_collision_loop_exc ex name0 ids name0 0 fuel

/-! ## cloud_transfer.py (the module script, lines 9-18) -/

/-- The script's copy: `response.raise_for_status()` (raises `HTTPError` for
any 4xx or 5xx status, aborting before the file is opened), then
`for chunk in part.iter_content(chunk_size=1024): f.write(chunk)`.
Returns the list of chunks written, or `Except.error ()` when
`raise_for_status` raised. -/
def script_copy (status : Nat) (body : List Nat) : Except Unit (List (List Nat)) :=
  if 400 ≤ status ∧ status < 600 then Except.error ()
  else Except.ok (iter_content 1024 body)

/-! ## storage_connections.py: azure_url_generator, and the result dicts -/

/-- How long (in seconds) the SAS URL produced by `azure_url_generator` is
valid: line 110 computes `expiry = datetime.utcnow() +
timedelta(minutes=expiration_time)`, i.e. `expiration_time` minutes. -/
def azure_url_generator_validity_seconds (expiration_time : Nat) : Nat :=
  expiration_time * 60

/-- How long (in seconds) the presigned URL produced in `s3_to_azure` is
valid: `generate_presigned_url(..., ExpiresIn=aws_url_expiration_time)`,
and boto3's `ExpiresIn` is in seconds (vendor SDK semantics). -/
def s3_presigned_validity_seconds (aws_url_expiration_time : Nat) : Nat :=
  aws_url_expiration_time

/-- Default of `aws_url_expiration_time` (line 40). -/
def s3_to_azure_default_expiration : Nat := 3600

/-- Default of `azure_storage_blob_url_expiration_time` (line 223). -/
def azure_to_s3_default_expiration : Nat := 3600

/-- Keys of the dict `s3_to_azure` actually returns (lines 207-213). -/
def s3_to_azure_result_keys : List String :=
  ["azure_storage_container_name", "azure_storage_blob_name",
   "aws_storage_bucket_name", "aws_storage_object_key"]

/-- Keys the `s3_to_azure` docstring documents for the return dict
(lines 109-116). -/
def s3_to_azure_documented_keys : List String :=
  ["azure_storage_container_name", "azure_storage_blob_name",
   "aws_storage_bucket_name", "aws_storage_object_key", "on_delete_transfer"]

/-- Keys of the dict `azure_to_s3` actually returns (lines 391-397). -/
def azure_to_s3_result_keys : List String :=
  ["aws_storage_bucket_name", "aws_storage_object_key",
   "azure_storage_container_name", "azure_storage_blob_name"]

/-- Keys the `azure_to_s3` docstring documents for the return dict
(lines 298-307). -/
def azure_to_s3_documented_keys : List String :=
  ["aws_storage_bucket_name", "aws_storage_object_key",
   "azure_storage_container_name", "azure_storage_blob_name", "delete_origin"]

/-- Chunk lengths as a function of the body length alone: what
`[len(c) for c in response.iter_content(chunk_size=C)]` yields for an
`n`-byte body. -/
def lengthChunksAux (C : Nat) : Nat → Nat → List Nat
  | 0, _ => []
  | _, 0 => []
  | fuel + 1, n + 1 => min C (n + 1) :: lengthChunksAux C fuel (n + 1 - C)

theorem iterContentAux_map_length (C : Nat) (hC : 0 < C) :
    ∀ (fuel : Nat) (l : List Nat), l.length ≤ fuel →
      (iterContentAux C fuel l).map List.length = lengthChunksAux C fuel l.length := by
  intro fuel
  induction fuel with
  | zero => intro l hl; simp [iterContentAux, lengthChunksAux]
  | succ n ih =>
    intro l hl
    cases l with
    | nil => simp [iterContentAux, lengthChunksAux]
    | cons a t =>
      have hdrop : ((a :: t).drop C).length ≤ n := by
        rw [List.length_drop]
        simp only [List.length_cons] at hl ⊢
        omega
      show ((List.take C (a :: t)).length ::
          (iterContentAux C n (List.drop C (a :: t))).map List.length)
          = lengthChunksAux C (n + 1) (a :: t).length
      rw [ih _ hdrop, List.length_take, List.length_drop, List.length_cons]
      rfl

/-! ## Properties of the collision loops -/

theorem s3_collision_loop_spec (ex : String → Bool) (orig : String) (ids : Nat → String) :
    ∀ (fuel : Nat) (cur : String) (i : Nat) (evs : List Ev) (n : String),
      s3_collision_loop ex orig ids cur i fuel = some (evs, n) →
      ex n = false ∧ ∀ e ∈ evs, ∃ m, e = Ev.dstCheck m (ex m) := by
  intro fuel
  induction fuel with
  | zero =>
    intro cur i evs n h
    simp only [s3_collision_loop] at h
    by_cases hex : ex cur = true
    · simp [hex] at h
    · rw [Bool.not_eq_true] at hex
      simp [hex] at h
      obtain ⟨h1, h2⟩ := h
      subst h1; subst h2
      refine ⟨hex, ?_⟩
      intro e he
      simp only [List.mem_singleton] at he
      exact ⟨cur, by rw [he, hex]⟩
  | succ f ih =>
    intro cur i evs n h
    simp only [s3_collision_loop] at h
    by_cases hex : ex cur = true
    · simp only [hex, if_true] at h
      cases hrec : s3_collision_loop ex orig ids (suffixed_name orig (ids i)) (i + 1) f with
      | none => rw [hrec] at h; simp at h
      | some p =>
        obtain ⟨evs', n'⟩ := p
        rw [hrec] at h
        simp only [Option.some.injEq, Prod.mk.injEq] at h
        obtain ⟨h1, h2⟩ := h
        obtain ⟨hfree, hall⟩ := ih _ _ _ _ hrec
        subst h2
        refine ⟨hfree, ?_⟩
        intro e he
        rw [← h1] at he
        rcases List.mem_cons.mp he with h | h
        · exact ⟨cur, by rw [h, hex]⟩
        · exact hall e h
    · rw [Bool.not_eq_true] at hex
      simp [hex] at h
      obtain ⟨h1, h2⟩ := h
      subst h1; subst h2
      refine ⟨hex, ?_⟩
      intro e he
      simp only [List.mem_singleton] at he
      exact ⟨cur, by rw [he, hex]⟩

theorem azure_head_loop_spec (ex : String → Bool) (orig : String) (ids : Nat → String) :
    ∀ (fuel : Nat) (cur : String) (i : Nat) (evs : List Ev) (n : String),
      azure_head_loop ex orig ids cur i fuel = some (evs, n) →
      ex n = false ∧ ∀ e ∈ evs, ∃ m, e = Ev.dstCheck m (ex m) := by
  intro fuel
  induction fuel with
  | zero =>
    intro cur i evs n h
    simp only [azure_head_loop] at h
    by_cases hex : ex cur = true
    · simp [hex] at h
    · rw [Bool.not_eq_true] at hex
      simp [hex] at h
      obtain ⟨h1, h2⟩ := h
      subst h1; subst h2
      refine ⟨hex, ?_⟩
      intro e he
      simp only [List.mem_singleton] at he
      exact ⟨cur, by rw [he, hex]⟩
  | succ f ih =>
    intro cur i evs n h
    simp only [azure_head_loop] at h
    by_cases hex : ex cur = true
    · simp only [hex, if_true] at h
      cases hrec : azure_head_loop ex orig ids (suffixed_name orig (ids i)) (i + 1) f with
      | none => rw [hrec] at h; simp at h
      | some p =>
        obtain ⟨evs', n'⟩ := p
        rw [hrec] at h
        simp only [Option.some.injEq, Prod.mk.injEq] at h
        obtain ⟨h1, h2⟩ := h
        obtain ⟨hfree, hall⟩ := ih _ _ _ _ hrec
        subst h2
        refine ⟨hfree, ?_⟩
        intro e he
        rw [← h1] at he
        rcases List.mem_cons.mp he with h | h
        · exact ⟨cur, by rw [h, hex]⟩
        · exact hall e h
    · rw [Bool.not_eq_true] at hex
      simp [hex] at h
      obtain ⟨h1, h2⟩ := h
      subst h1; subst h2
      refine ⟨hex, ?_⟩
      intro e he
      simp only [List.mem_singleton] at he
      exact ⟨cur, by rw [he, hex]⟩

/-! ## Run-level properties -/

theorem s3_rest_nov_fresh
    (container bucket key name0 : String) (presignEvs : List Ev)
    (deleteAfter : Bool) (ex : String → Bool) (ids : Nat → String)
    (status : Nat) (uploadOk : Bool) (fuel : Nat)
    (hp : ∀ e ∈ presignEvs, e = Ev.presign)
    (evs : List Ev) (info : S3AzureInfo)
    (h : s3_to_azure_rest container bucket key name0 presignEvs false deleteAfter
        ex ids status uploadOk fuel = some (evs, Outcome.ok info)) :
    ex info.azure_storage_blob_name = false ∧
      ∀ m, Ev.dstCheck m true ∈ evs → m ≠ info.azure_storage_blob_name := by
  simp only [s3_to_azure_rest, Bool.false_eq_true, if_false] at h
  cases hloop : s3_collision_loop ex name0 ids name0 0 fuel with
  | none => rw [hloop] at h; simp at h
  | some p =>
    obtain ⟨resEvs, final⟩ := p
    rw [hloop] at h
    obtain ⟨hfree, hall⟩ := s3_collision_loop_spec ex name0 ids fuel name0 0 resEvs final hloop
    by_cases hup : uploadOk = true
    · simp only [hup, if_true] at h
      simp only [Option.some.injEq, Prod.mk.injEq, Outcome.ok.injEq] at h
      obtain ⟨hevs, hinfo⟩ := h
      have hblob : info.azure_storage_blob_name = final := by rw [← hinfo]
      subst hevs
      rw [hblob]
      refine ⟨hfree, ?_⟩
      intro m hm
      simp only [List.mem_append, List.mem_cons, List.mem_singleton] at hm
      intro hcontra
      subst hcontra
      rcases hm with (hm | hm) | hm
      · rcases hm with hm | hm
        · exact absurd (hp _ hm) (by simp)
        · obtain ⟨m', hm'⟩ := hall _ hm
          injection hm' with h1 h2
          subst h1
          rw [← h2] at hfree
          simp at hfree
      · rcases hm with hm | hm
        · cases hm
        · rcases hm with hm | hm
          · cases hm
          · cases hm
      · split at hm
        · simp at hm
        · simp at hm
    · simp only [Bool.not_eq_true] at hup
      simp [hup] at h

theorem azure_run_nov_fresh
    (container bucket blob : String) (awsKey? : Option String) (deleteAfter : Bool)
    (exDst exSrc : String → Bool) (ids : Nat → String) (status : Nat)
    (uploadOk : Bool) (expiration fuel : Nat) (evs : List Ev) (info : AzureS3Info)
    (h : azure_to_s3_run container bucket blob awsKey? false deleteAfter exDst exSrc ids
        status uploadOk expiration fuel = some (evs, Outcome.ok info)) :
    exDst info.aws_storage_object_key = false ∧
      ∀ m, Ev.dstCheck m true ∈ evs → m ≠ info.aws_storage_object_key := by
  simp only [azure_to_s3_run, Bool.false_eq_true, if_false] at h
  cases hloop : azure_head_loop exDst (awsKey?.getD blob) ids (awsKey?.getD blob) 0 fuel with
  | none => rw [hloop] at h; simp at h
  | some p =>
    obtain ⟨resEvs, final⟩ := p
    rw [hloop] at h
    obtain ⟨hfree, hall⟩ := azure_head_loop_spec exDst _ ids fuel _ 0 resEvs final hloop
    by_cases hup : uploadOk = true
    · simp only [hup, if_true] at h
      simp only [Option.some.injEq, Prod.mk.injEq, Outcome.ok.injEq] at h
      obtain ⟨hevs, hinfo⟩ := h
      have hkey : info.aws_storage_object_key = final := by rw [← hinfo]
      subst hevs
      rw [hkey]
      refine ⟨hfree, ?_⟩
      intro m hm hcontra
      subst hcontra
      simp only [List.append_assoc] at hm
      rcases List.mem_append.mp hm with h1 | h23
      · simp at h1
      rcases List.mem_append.mp h23 with h2 | h34
      · obtain ⟨m', hm'⟩ := hall _ h2
        injection hm' with ha hb
        subst ha
        rw [← hb] at hfree
        simp at hfree
      rcases List.mem_append.mp h34 with h3 | h4
      · simp at h3
      · split at h4
        · split at h4 <;> simp at h4
        · simp at h4
    · simp only [Bool.not_eq_true] at hup
      simp [hup] at h

theorem s3_run_nov_fresh
    (container bucket key : String) (blobName? : Option String)
    (public presignOk deleteAfter : Bool) (ex : String → Bool) (ids : Nat → String)
    (status : Nat) (uploadOk : Bool) (fuel : Nat) (evs : List Ev) (info : S3AzureInfo)
    (h : s3_to_azure_run container bucket key blobName? public presignOk false deleteAfter
        ex ids status uploadOk fuel = some (evs, Outcome.ok info)) :
    ex info.azure_storage_blob_name = false ∧
      ∀ m, Ev.dstCheck m true ∈ evs → m ≠ info.azure_storage_blob_name := by
  simp only [s3_to_azure_run] at h
  by_cases hpub : public = true
  · simp only [hpub, if_true] at h
    exact s3_rest_nov_fresh _ _ _ _ _ _ _ _ _ _ _ (by simp) _ _ h
  · simp only [Bool.not_eq_true] at hpub
    simp only [hpub, Bool.false_eq_true, if_false] at h
    by_cases hps : presignOk = true
    · simp only [hps, if_true] at h
      exact s3_rest_nov_fresh _ _ _ _ _ _ _ _ _ _ _ (by simp) _ _ h
    · simp only [Bool.not_eq_true] at hps
      simp [hps] at h

/-- C1: with overwrite disabled, in either transfer direction, the destination
name a successful run returns is one whose existence check returned `false`
immediately before the upload, and it differs from every name any existence
check during resolution observed to exist. -/
theorem C1_nonoverwrite_final_name_fresh :
    (∀ (container bucket key : String) (blobName? : Option String)
      (public presignOk deleteAfter : Bool) (ex : String → Bool) (ids : Nat → String)
      (status : Nat) (uploadOk : Bool) (fuel : Nat) (evs : List Ev) (info : S3AzureInfo),
      s3_to_azure_run container bucket key blobName? public presignOk false deleteAfter
          ex ids status uploadOk fuel = some (evs, Outcome.ok info) →
      ex info.azure_storage_blob_name = false ∧
        ∀ m, Ev.dstCheck m true ∈ evs → m ≠ info.azure_storage_blob_name) ∧
    (∀ (container bucket blob : String) (awsKey? : Option String) (deleteAfter : Bool)
      (exDst exSrc : String → Bool) (ids : Nat → String) (status : Nat)
      (uploadOk : Bool) (expiration fuel : Nat) (evs : List Ev) (info : AzureS3Info),
      azure_to_s3_run container bucket blob awsKey? false deleteAfter exDst exSrc ids
          status uploadOk expiration fuel = some (evs, Outcome.ok info) →
      exDst info.aws_storage_object_key = false ∧
        ∀ m, Ev.dstCheck m true ∈ evs → m ≠ info.aws_storage_object_key) :=
  ⟨fun container bucket key blobName? public presignOk deleteAfter ex ids status
      uploadOk fuel evs info h =>
    s3_run_nov_fresh container bucket key blobName? public presignOk deleteAfter ex ids
      status uploadOk fuel evs info h,
   fun container bucket blob awsKey? deleteAfter exDst exSrc ids status uploadOk
      expiration fuel evs info h =>
    azure_run_nov_fresh container bucket blob awsKey? deleteAfter exDst exSrc ids status
      uploadOk expiration fuel evs info h⟩

/-- Witness for C1 at a concrete input: the namespace contains `report.pdf`,
the run renames to `report_Ab3xYz.pdf`, whose check returned `false`. -/
theorem C1_witness :
    s3_to_azure_run "cont" "buck" "report.pdf" none true true false false
        (fun n => n == "report.pdf") (fun _ => "Ab3xYz") 200 true 10
      = some ([Ev.dstCheck "report.pdf" true, Ev.dstCheck "report_Ab3xYz.pdf" false,
               Ev.httpGet 200, Ev.uploadBlob "report_Ab3xYz.pdf"],
          Outcome.ok
            { azure_storage_container_name := "cont"
              azure_storage_blob_name := "report_Ab3xYz.pdf"
              aws_storage_bucket_name := "buck"
              aws_storage_object_key := "report.pdf" }) ∧
    ((fun n => n == "report.pdf")
        (S3AzureInfo.azure_storage_blob_name
          { azure_storage_container_name := "cont"
            azure_storage_blob_name := "report_Ab3xYz.pdf"
            aws_storage_bucket_name := "buck"
            aws_storage_object_key := "report.pdf" }) = false ∧
      ∀ m, Ev.dstCheck m true ∈
          [Ev.dstCheck "report.pdf" true, Ev.dstCheck "report_Ab3xYz.pdf" false,
           Ev.httpGet 200, Ev.uploadBlob "report_Ab3xYz.pdf"] →
        m ≠ S3AzureInfo.azure_storage_blob_name
          { azure_storage_container_name := "cont"
            azure_storage_blob_name := "report_Ab3xYz.pdf"
            aws_storage_bucket_name := "buck"
            aws_storage_object_key := "report.pdf" }) :=
  have h : s3_to_azure_run "cont" "buck" "report.pdf" none true true false false
        (fun n => n == "report.pdf") (fun _ => "Ab3xYz") 200 true 10
      = some ([Ev.dstCheck "report.pdf" true, Ev.dstCheck "report_Ab3xYz.pdf" false,
               Ev.httpGet 200, Ev.uploadBlob "report_Ab3xYz.pdf"],
          Outcome.ok
            { azure_storage_container_name := "cont"
              azure_storage_blob_name := "report_Ab3xYz.pdf"
              aws_storage_bucket_name := "buck"
              aws_storage_object_key := "report.pdf" }) := by decide
  ⟨h, C1_nonoverwrite_final_name_fresh.1 "cont" "buck" "report.pdf" none true true false
      (fun n => n == "report.pdf") (fun _ => "Ab3xYz") 200 true 10 _ _ h⟩

/-- C10: for every size, `id_generator` returns exactly that many characters,
each from the 62-character alphabet of ASCII uppercase letters, decimal
digits and ASCII lowercase letters; the default size is 6. -/
theorem C10_id_generator_length_and_alphabet (size : Nat) (pick : Nat → Fin 62) :
    (id_generator size pick).length = size ∧
    (∀ c ∈ id_generator size pick, c ∈ id_chars) ∧
    id_chars = ascii_uppercase ++ ascii_digits ++ ascii_lowercase ∧
    id_chars.length = 62 ∧
    (id_generator 6 pick).length = 6 := by
  refine ⟨by simp [id_generator], ?_, rfl, rfl, by simp [id_generator]⟩
  intro c hc
  simp only [id_generator, List.mem_map] at hc
  obtain ⟨i, _, hi⟩ := hc
  rw [← hi]
  exact List.get_mem _ _ _

/-- C2: the chunked copy yields exactly `ceil(L/C)` non-empty chunks of at
most `C` bytes whose concatenation is the source; for L = 2500 and C = 1024
the chunk lengths are [1024, 1024, 452]. -/
theorem C2_chunked_copy_exact (C : Nat) (hC : 0 < C) (body : List Nat) :
    (iter_content C body).length = (body.length + C - 1) / C ∧
    (∀ c ∈ iter_content C body, c ≠ [] ∧ c.length ≤ C) ∧
    (iter_content C body).flatten = body ∧
    (iter_content 1024 (List.replicate 2500 0)).map List.length = [1024, 1024, 452] := by
  refine ⟨iterContentAux_length C hC body.length body le_rfl,
          fun c hc => iterContentAux_chunks C hC body.length body c hc,
          iterContentAux_flatten C hC body.length body le_rfl, ?_⟩
  have e1 : iter_content 1024 (List.replicate 2500 (0 : Nat))
      = iterContentAux 1024 2500 (List.replicate 2500 0) := by
    rw [iter_content, List.length_replicate]
  have e2 : (List.replicate 2500 (0 : Nat)).length ≤ 2500 := by
    rw [List.length_replicate]
  rw [e1, iterContentAux_map_length 1024 (by norm_num) 2500 _ e2, List.length_replicate]
  decide

/-- Witness for C2 at C = 1024 on the 2500-byte body. -/
theorem C2_witness :
    0 < 1024 ∧
    ((iter_content 1024 (List.replicate 2500 0)).length
        = ((List.replicate 2500 (0 : Nat)).length + 1024 - 1) / 1024 ∧
      (∀ c ∈ iter_content 1024 (List.replicate 2500 (0 : Nat)), c ≠ [] ∧ c.length ≤ 1024) ∧
      (iter_content 1024 (List.replicate 2500 (0 : Nat))).flatten = List.replicate 2500 0 ∧
      (iter_content 1024 (List.replicate 2500 0)).map List.length = [1024, 1024, 452]) :=
  ⟨by decide, C2_chunked_copy_exact 1024 (by decide) (List.replicate 2500 0)⟩

/-- C9: when no explicit destination name is given, the destination name
defaults to the source object's name before collision resolution: each run
with `None` equals the run with the source name passed explicitly, and on a
free namespace the final name is the source name. -/
theorem C9_destination_name_defaults_to_source :
    (∀ (container bucket key : String) (public presignOk overwrite deleteAfter : Bool)
      (ex : String → Bool) (ids : Nat → String) (status : Nat) (uploadOk : Bool) (fuel : Nat),
      s3_to_azure_run container bucket key none public presignOk overwrite deleteAfter
          ex ids status uploadOk fuel
        = s3_to_azure_run container bucket key (some key) public presignOk overwrite
          deleteAfter ex ids status uploadOk fuel) ∧
    (∀ (container bucket blob : String) (overwrite deleteAfter : Bool)
      (exDst exSrc : String → Bool) (ids : Nat → String) (status : Nat) (uploadOk : Bool)
      (expiration fuel : Nat),
      azure_to_s3_run container bucket blob none overwrite deleteAfter exDst exSrc ids
          status uploadOk expiration fuel
        = azure_to_s3_run container bucket blob (some blob) overwrite deleteAfter exDst
          exSrc ids status uploadOk expiration fuel) ∧
    s3_to_azure_run "c" "b" "k.txt" none true true false false (fun _ => false)
        (fun _ => "ID") 200 true 1
      = some ([Ev.dstCheck "k.txt" false, Ev.httpGet 200, Ev.uploadBlob "k.txt"],
          Outcome.ok
            { azure_storage_container_name := "c"
              azure_storage_blob_name := "k.txt"
              aws_storage_bucket_name := "b"
              aws_storage_object_key := "k.txt" }) ∧
    azure_to_s3_run "c" "b" "k.txt" none false false (fun _ => false) (fun _ => true)
        (fun _ => "ID") 200 true 3600 1
      = some ([Ev.sasGenerate 3600, Ev.httpGet 200, Ev.dstCheck "k.txt" false,
               Ev.uploadFileobj "k.txt"],
          Outcome.ok
            { aws_storage_bucket_name := "b"
              aws_storage_object_key := "k.txt"
              azure_storage_container_name := "c"
              azure_storage_blob_name := "k.txt" }) :=
  ⟨fun _ _ _ _ _ _ _ _ _ _ _ _ => rfl,
   fun _ _ _ _ _ _ _ _ _ _ _ _ => rfl,
   by decide, by decide⟩

/-- C6: the claim reads the expiration parameter as seconds (default 3600) in
both directions.  The S3 side is seconds, but `azure_url_generator` feeds the
value to `timedelta(minutes=...)`: with `azure_to_s3`'s default 3600 the SAS
URL is valid 216000 seconds, contradicting the docstring's "3600 seconds". -/
theorem C6_azure_expiration_is_minutes_not_seconds :
    s3_to_azure_default_expiration = 3600 ∧
    azure_to_s3_default_expiration = 3600 ∧
    s3_presigned_validity_seconds s3_to_azure_default_expiration = 3600 ∧
    azure_url_generator_validity_seconds azure_to_s3_default_expiration = 216000 ∧
    azure_url_generator_validity_seconds azure_to_s3_default_expiration ≠ 3600 := by
  decide

/-- C7: each transfer's docstring documents a source-deleted boolean key
(`on_delete_transfer` / `delete_origin`) in the returned dict, but the dict
the code builds and returns has no such key. -/
theorem C7_result_lacks_source_deleted_field :
    "on_delete_transfer" ∈ s3_to_azure_documented_keys ∧
    "on_delete_transfer" ∉ s3_to_azure_result_keys ∧
    "delete_origin" ∈ azure_to_s3_documented_keys ∧
    "delete_origin" ∉ azure_to_s3_result_keys := by decide

theorem s3_rest_ov_spec
    (container bucket key name0 : String) (presignEvs : List Ev)
    (deleteAfter : Bool) (ex : String → Bool) (ids : Nat → String)
    (status : Nat) (uploadOk : Bool) (fuel : Nat)
    (hp : ∀ e ∈ presignEvs, e = Ev.presign)
    (evs : List Ev) (info : S3AzureInfo)
    (hex : ex name0 = true)
    (h : s3_to_azure_rest container bucket key name0 presignEvs true deleteAfter
        ex ids status uploadOk fuel = some (evs, Outcome.ok info)) :
    info.azure_storage_blob_name = name0 ∧
    ∃ pre post, evs = pre ++ Ev.deleteDest name0 :: post ∧
      Ev.uploadBlob name0 ∈ post ∧
      (∀ n, Ev.deleteDest n ∉ pre) ∧ (∀ n, Ev.deleteDest n ∉ post) := by
  simp only [s3_to_azure_rest, hex, if_true] at h
  by_cases hup : uploadOk = true
  · simp only [hup, if_true] at h
    simp only [Option.some.injEq, Prod.mk.injEq, Outcome.ok.injEq] at h
    obtain ⟨hevs, hinfo⟩ := h
    have hblob : info.azure_storage_blob_name = name0 := by rw [← hinfo]
    subst hevs
    refine ⟨hblob, presignEvs ++ [Ev.dstCheck name0 true],
      [Ev.httpGet status, Ev.uploadBlob name0]
        ++ (if deleteAfter = true then [Ev.deleteSource key] else []), ?_, ?_, ?_, ?_⟩
    · simp
    · simp
    · intro n hn
      rcases List.mem_append.mp hn with h1 | h2
      · exact absurd (hp _ h1) (by simp)
      · simp at h2
    · intro n hn
      rcases List.mem_append.mp hn with h1 | h2
      · simp at h1
      · split at h2 <;> simp at h2
  · simp only [Bool.not_eq_true] at hup
    simp [hup] at h

theorem azure_run_ov_spec
    (container bucket blob : String) (awsKey? : Option String) (deleteAfter : Bool)
    (exDst exSrc : String → Bool) (ids : Nat → String) (status : Nat)
    (uploadOk : Bool) (expiration fuel : Nat) (evs : List Ev) (out : Outcome AzureS3Info)
    (h : azure_to_s3_run container bucket blob awsKey? true deleteAfter exDst exSrc ids
        status uploadOk expiration fuel = some (evs, out)) :
    (∀ info, out = Outcome.ok info → info.aws_storage_object_key = awsKey?.getD blob) ∧
    (∀ n, Ev.deleteDest n ∉ evs) ∧ (∀ n b, Ev.dstCheck n b ∉ evs) := by
  simp only [azure_to_s3_run, if_true] at h
  by_cases hup : uploadOk = true
  · simp only [hup, if_true] at h
    simp only [Option.some.injEq, Prod.mk.injEq] at h
    obtain ⟨hevs, hout⟩ := h
    subst hevs
    refine ⟨?_, ?_, ?_⟩
    · intro info hinfo
      rw [← hout] at hinfo
      injection hinfo with hinfo
      rw [← hinfo]
    · intro n hn
      simp only [List.append_assoc] at hn
      rcases List.mem_append.mp hn with h1 | h2
      · simp at h1
      rcases List.mem_append.mp h2 with h3 | h4
      · simp at h3
      rcases List.mem_append.mp h4 with h5 | h6
      · simp at h5
      · split at h6
        · split at h6 <;> simp at h6
        · simp at h6
    · intro n b hn
      simp only [List.append_assoc] at hn
      rcases List.mem_append.mp hn with h1 | h2
      · simp at h1
      rcases List.mem_append.mp h2 with h3 | h4
      · simp at h3
      rcases List.mem_append.mp h4 with h5 | h6
      · simp at h5
      · split at h6
        · split at h6 <;> simp at h6
        · simp at h6
  · simp only [Bool.not_eq_true] at hup
    simp only [hup, Bool.false_eq_true, if_false, Option.some.injEq, Prod.mk.injEq] at h
    obtain ⟨hevs, hout⟩ := h
    subst hevs
    refine ⟨?_, ?_, ?_⟩
    · intro info hinfo
      rw [← hout] at hinfo
      exact Outcome.noConfusion hinfo
    · intro n hn
      simp at hn
    · intro n b hn
      simp at hn

theorem s3_run_ov_spec
    (container bucket key : String) (blobName? : Option String)
    (public presignOk deleteAfter : Bool) (ex : String → Bool) (ids : Nat → String)
    (status : Nat) (uploadOk : Bool) (fuel : Nat) (evs : List Ev) (info : S3AzureInfo)
    (hex : ex (blobName?.getD key) = true)
    (h : s3_to_azure_run container bucket key blobName? public presignOk true deleteAfter
        ex ids status uploadOk fuel = some (evs, Outcome.ok info)) :
    info.azure_storage_blob_name = blobName?.getD key ∧
    ∃ pre post, evs = pre ++ Ev.deleteDest (blobName?.getD key) :: post ∧
      Ev.uploadBlob (blobName?.getD key) ∈ post ∧
      (∀ n, Ev.deleteDest n ∉ pre) ∧ (∀ n, Ev.deleteDest n ∉ post) := by
  simp only [s3_to_azure_run] at h
  by_cases hpub : public = true
  · simp only [hpub, if_true] at h
    exact s3_rest_ov_spec _ _ _ _ _ _ _ _ _ _ _ (by simp) _ _ hex h
  · simp only [Bool.not_eq_true] at hpub
    simp only [hpub, Bool.false_eq_true, if_false] at h
    by_cases hps : presignOk = true
    · simp only [hps, if_true] at h
      exact s3_rest_ov_spec _ _ _ _ _ _ _ _ _ _ _ (by simp) _ _ hex h
    · simp only [Bool.not_eq_true] at hps
      simp [hps] at h

/-- C3 counterexample: `azure_to_s3` with overwrite enabled and an existing
destination object `report.pdf` returns the original name but performs no
existence check and no delete of the pre-existing destination object, so the
claim's check-then-delete does not hold for both transfer directions. -/
theorem C3_counterexample :
    (fun n => n == "report.pdf") "report.pdf" = true ∧
    azure_to_s3_run "cont" "buck" "report.pdf" none true false
        (fun n => n == "report.pdf") (fun _ => false) (fun _ => "Ab3xYz") 200 true 3600 10
      = some ([Ev.sasGenerate 3600, Ev.httpGet 200, Ev.uploadFileobj "report.pdf"],
          Outcome.ok
            { aws_storage_bucket_name := "buck"
              aws_storage_object_key := "report.pdf"
              azure_storage_container_name := "cont"
              azure_storage_blob_name := "report.pdf" }) ∧
    Ev.deleteDest "report.pdf"
        ∉ [Ev.sasGenerate 3600, Ev.httpGet 200, Ev.uploadFileobj "report.pdf"] ∧
    Ev.dstCheck "report.pdf" true
        ∉ [Ev.sasGenerate 3600, Ev.httpGet 200, Ev.uploadFileobj "report.pdf"] := by
  decide

/-- C3 (amended): with overwrite enabled and an existing destination,
`s3_to_azure` returns the original candidate name and deletes the existing
blob exactly once (single check-then-delete, no retry) before the upload;
`azure_to_s3` likewise returns the original candidate name unchanged but
performs no destination existence check and no destination delete — the S3
upload itself overwrites. -/
theorem C3_overwrite_resolution :
    (∀ (container bucket key : String) (blobName? : Option String)
      (public presignOk deleteAfter : Bool) (ex : String → Bool) (ids : Nat → String)
      (status : Nat) (uploadOk : Bool) (fuel : Nat) (evs : List Ev) (info : S3AzureInfo),
      ex (blobName?.getD key) = true →
      s3_to_azure_run container bucket key blobName? public presignOk true deleteAfter
          ex ids status uploadOk fuel = some (evs, Outcome.ok info) →
      info.azure_storage_blob_name = blobName?.getD key ∧
      ∃ pre post, evs = pre ++ Ev.deleteDest (blobName?.getD key) :: post ∧
        Ev.uploadBlob (blobName?.getD key) ∈ post ∧
        (∀ n, Ev.deleteDest n ∉ pre) ∧ (∀ n, Ev.deleteDest n ∉ post)) ∧
    (∀ (container bucket blob : String) (awsKey? : Option String) (deleteAfter : Bool)
      (exDst exSrc : String → Bool) (ids : Nat → String) (status : Nat)
      (uploadOk : Bool) (expiration fuel : Nat) (evs : List Ev) (out : Outcome AzureS3Info),
      azure_to_s3_run container bucket blob awsKey? true deleteAfter exDst exSrc ids
          status uploadOk expiration fuel = some (evs, out) →
      (∀ info, out = Outcome.ok info → info.aws_storage_object_key = awsKey?.getD blob) ∧
      (∀ n, Ev.deleteDest n ∉ evs) ∧ (∀ n b, Ev.dstCheck n b ∉ evs)) :=
  ⟨fun container bucket key blobName? public presignOk deleteAfter ex ids status uploadOk
      fuel evs info hex h =>
    s3_run_ov_spec container bucket key blobName? public presignOk deleteAfter ex ids
      status uploadOk fuel evs info hex h,
   fun container bucket blob awsKey? deleteAfter exDst exSrc ids status uploadOk
      expiration fuel evs out h =>
    azure_run_ov_spec container bucket blob awsKey? deleteAfter exDst exSrc ids status
      uploadOk expiration fuel evs out h⟩

/-- Witness for C3 (amended) at a concrete input: destination `report.pdf`
exists, `s3_to_azure` with overwrite checks once, deletes it, and uploads
under the same name. -/
theorem C3_witness :
    (fun n => n == "report.pdf") ((none : Option String).getD "report.pdf") = true ∧
    s3_to_azure_run "cont" "buck" "report.pdf" none true true true false
        (fun n => n == "report.pdf") (fun _ => "Ab3xYz") 200 true 10
      = some ([Ev.dstCheck "report.pdf" true, Ev.deleteDest "report.pdf",
               Ev.httpGet 200, Ev.uploadBlob "report.pdf"],
          Outcome.ok
            { azure_storage_container_name := "cont"
              azure_storage_blob_name := "report.pdf"
              aws_storage_bucket_name := "buck"
              aws_storage_object_key := "report.pdf" }) ∧
    (S3AzureInfo.azure_storage_blob_name
        { azure_storage_container_name := "cont"
          azure_storage_blob_name := "report.pdf"
          aws_storage_bucket_name := "buck"
          aws_storage_object_key := "report.pdf" }
      = (none : Option String).getD "report.pdf" ∧
    ∃ pre post,
      [Ev.dstCheck "report.pdf" true, Ev.deleteDest "report.pdf",
       Ev.httpGet 200, Ev.uploadBlob "report.pdf"]
        = pre ++ Ev.deleteDest ((none : Option String).getD "report.pdf") :: post ∧
      Ev.uploadBlob ((none : Option String).getD "report.pdf") ∈ post ∧
      (∀ n, Ev.deleteDest n ∉ pre) ∧ (∀ n, Ev.deleteDest n ∉ post)) :=
  have hex : (fun n => n == "report.pdf") ((none : Option String).getD "report.pdf")
      = true := by decide
  have h : s3_to_azure_run "cont" "buck" "report.pdf" none true true true false
        (fun n => n == "report.pdf") (fun _ => "Ab3xYz") 200 true 10
      = some ([Ev.dstCheck "report.pdf" true, Ev.deleteDest "report.pdf",
               Ev.httpGet 200, Ev.uploadBlob "report.pdf"],
          Outcome.ok
            { azure_storage_container_name := "cont"
              azure_storage_blob_name := "report.pdf"
              aws_storage_bucket_name := "buck"
              aws_storage_object_key := "report.pdf" }) := by decide
  ⟨hex, h, C3_overwrite_resolution.1 "cont" "buck" "report.pdf" none true true false
      (fun n => n == "report.pdf") (fun _ => "Ab3xYz") 200 true 10 _ _ hex h⟩

theorem s3_rest_uploads
    (container bucket key name0 : String) (presignEvs : List Ev)
    (overwrite deleteAfter : Bool) (ex : String → Bool) (ids : Nat → String)
    (status : Nat) (uploadOk : Bool) (fuel : Nat) (evs : List Ev) (info : S3AzureInfo)
    (h : s3_to_azure_rest container bucket key name0 presignEvs overwrite deleteAfter
        ex ids status uploadOk fuel = some (evs, Outcome.ok info)) :
    Ev.httpGet status ∈ evs ∧ Ev.uploadBlob info.azure_storage_blob_name ∈ evs := by
  simp only [s3_to_azure_rest] at h
  by_cases how : overwrite = true
  · simp only [how, if_true] at h
    by_cases hex : ex name0 = true
    · simp only [hex, if_true] at h
      by_cases hup : uploadOk = true
      · simp only [hup, if_true, Option.some.injEq, Prod.mk.injEq, Outcome.ok.injEq] at h
        obtain ⟨hevs, hinfo⟩ := h
        have hblob : info.azure_storage_blob_name = name0 := by rw [← hinfo]
        subst hevs
        rw [hblob]
        constructor <;> simp
      · simp only [Bool.not_eq_true] at hup
        simp [hup] at h
    · simp only [Bool.not_eq_true] at hex
      simp only [hex, Bool.false_eq_true, if_false] at h
      by_cases hup : uploadOk = true
      · simp only [hup, if_true, Option.some.injEq, Prod.mk.injEq, Outcome.ok.injEq] at h
        obtain ⟨hevs, hinfo⟩ := h
        have hblob : info.azure_storage_blob_name = name0 := by rw [← hinfo]
        subst hevs
        rw [hblob]
        constructor <;> simp
      · simp only [Bool.not_eq_true] at hup
        simp [hup] at h
  · simp only [Bool.not_eq_true] at how
    simp only [how, Bool.false_eq_true, if_false] at h
    cases hloop : s3_collision_loop ex name0 ids name0 0 fuel with
    | none => rw [hloop] at h; simp at h
    | some p =>
      obtain ⟨resEvs, final⟩ := p
      rw [hloop] at h
      by_cases hup : uploadOk = true
      · simp only [hup, if_true, Option.some.injEq, Prod.mk.injEq, Outcome.ok.injEq] at h
        obtain ⟨hevs, hinfo⟩ := h
        have hblob : info.azure_storage_blob_name = final := by rw [← hinfo]
        subst hevs
        rw [hblob]
        constructor <;> simp
      · simp only [Bool.not_eq_true] at hup
        simp [hup] at h

theorem s3_run_uploads
    (container bucket key : String) (blobName? : Option String)
    (public presignOk overwrite deleteAfter : Bool) (ex : String → Bool)
    (ids : Nat → String) (status : Nat) (uploadOk : Bool) (fuel : Nat)
    (evs : List Ev) (info : S3AzureInfo)
    (h : s3_to_azure_run container bucket key blobName? public presignOk overwrite
        deleteAfter ex ids status uploadOk fuel = some (evs, Outcome.ok info)) :
    Ev.httpGet status ∈ evs ∧ Ev.uploadBlob info.azure_storage_blob_name ∈ evs := by
  simp only [s3_to_azure_run] at h
  by_cases hpub : public = true
  · simp only [hpub, if_true] at h
    exact s3_rest_uploads _ _ _ _ _ _ _ _ _ _ _ _ _ _ h
  · simp only [Bool.not_eq_true] at hpub
    simp only [hpub, Bool.false_eq_true, if_false] at h
    by_cases hps : presignOk = true
    · simp only [hps, if_true] at h
      exact s3_rest_uploads _ _ _ _ _ _ _ _ _ _ _ _ _ _ h
    · simp only [Bool.not_eq_true] at hps
      simp [hps] at h

theorem azure_run_uploads
    (container bucket blob : String) (awsKey? : Option String)
    (overwrite deleteAfter : Bool) (exDst exSrc : String → Bool) (ids : Nat → String)
    (status : Nat) (uploadOk : Bool) (expiration fuel : Nat)
    (evs : List Ev) (info : AzureS3Info)
    (h : azure_to_s3_run container bucket blob awsKey? overwrite deleteAfter exDst exSrc
        ids status uploadOk expiration fuel = some (evs, Outcome.ok info)) :
    Ev.httpGet status ∈ evs ∧ Ev.uploadFileobj info.aws_storage_object_key ∈ evs := by
  simp only [azure_to_s3_run] at h
  by_cases how : overwrite = true
  · simp only [how, if_true] at h
    by_cases hup : uploadOk = true
    · simp only [hup, if_true, Option.some.injEq, Prod.mk.injEq, Outcome.ok.injEq] at h
      obtain ⟨hevs, hinfo⟩ := h
      have hkey : info.aws_storage_object_key = awsKey?.getD blob := by rw [← hinfo]
      subst hevs
      rw [hkey]
      constructor <;> simp
    · simp only [Bool.not_eq_true] at hup
      simp [hup] at h
  · simp only [Bool.not_eq_true] at how
    simp only [how, Bool.false_eq_true, if_false] at h
    cases hloop : azure_head_loop exDst (awsKey?.getD blob) ids (awsKey?.getD blob) 0 fuel with
    | none => rw [hloop] at h; simp at h
    | some p =>
      obtain ⟨resEvs, final⟩ := p
      rw [hloop] at h
      by_cases hup : uploadOk = true
      · simp only [hup, if_true, Option.some.injEq, Prod.mk.injEq, Outcome.ok.injEq] at h
        obtain ⟨hevs, hinfo⟩ := h
        have hkey : info.aws_storage_object_key = final := by rw [← hinfo]
        subst hevs
        rw [hkey]
        constructor <;> simp
      · simp only [Bool.not_eq_true] at hup
        simp [hup] at h

/-- C4 counterexample: `s3_to_azure` on a source whose open returned HTTP 404
does not fail — it calls `upload_blob` anyway and returns success, so the
claim that a non-success source-open status aborts the copy before any
destination write is false for the transfer functions. -/
theorem C4_counterexample :
    s3_to_azure_run "cont" "buck" "a.txt" none true true true false (fun _ => false)
        (fun _ => "Ab3xYz") 404 true 10
      = some ([Ev.dstCheck "a.txt" false, Ev.httpGet 404, Ev.uploadBlob "a.txt"],
          Outcome.ok
            { azure_storage_container_name := "cont"
              azure_storage_blob_name := "a.txt"
              aws_storage_bucket_name := "buck"
              aws_storage_object_key := "a.txt" }) ∧
    Ev.uploadBlob "a.txt"
        ∈ [Ev.dstCheck "a.txt" false, Ev.httpGet 404, Ev.uploadBlob "a.txt"] ∧
    (400 ≤ 404 ∧ 404 < 600) := by decide

/-- C4 (amended): only the module script `cloud_transfer.py` checks the
source-open status — `raise_for_status()` makes any 4xx/5xx status abort
before a single write.  The transfer functions `s3_to_azure` and
`azure_to_s3` never inspect the status: every successful run contains the
destination upload call whatever status `requests.get` returned. -/
theorem C4_status_check_only_in_script :
    (∀ (status : Nat) (body : List Nat), 400 ≤ status → status < 600 →
      script_copy status body = Except.error ()) ∧
    (∀ (container bucket key : String) (blobName? : Option String)
      (public presignOk overwrite deleteAfter : Bool) (ex : String → Bool)
      (ids : Nat → String) (status : Nat) (uploadOk : Bool) (fuel : Nat)
      (evs : List Ev) (info : S3AzureInfo),
      s3_to_azure_run container bucket key blobName? public presignOk overwrite
          deleteAfter ex ids status uploadOk fuel = some (evs, Outcome.ok info) →
      Ev.httpGet status ∈ evs ∧ Ev.uploadBlob info.azure_storage_blob_name ∈ evs) ∧
    (∀ (container bucket blob : String) (awsKey? : Option String)
      (overwrite deleteAfter : Bool) (exDst exSrc : String → Bool) (ids : Nat → String)
      (status : Nat) (uploadOk : Bool) (expiration fuel : Nat)
      (evs : List Ev) (info : AzureS3Info),
      azure_to_s3_run container bucket blob awsKey? overwrite deleteAfter exDst exSrc
          ids status uploadOk expiration fuel = some (evs, Outcome.ok info) →
      Ev.httpGet status ∈ evs ∧ Ev.uploadFileobj info.aws_storage_object_key ∈ evs) :=
  ⟨fun status body h4 h6 => by simp [script_copy, h4, h6],
   fun container bucket key blobName? public presignOk overwrite deleteAfter ex ids
      status uploadOk fuel evs info h =>
    s3_run_uploads container bucket key blobName? public presignOk overwrite deleteAfter
      ex ids status uploadOk fuel evs info h,
   fun container bucket blob awsKey? overwrite deleteAfter exDst exSrc ids status
      uploadOk expiration fuel evs info h =>
    azure_run_uploads container bucket blob awsKey? overwrite deleteAfter exDst exSrc
      ids status uploadOk expiration fuel evs info h⟩

/-- Witness for C4 (amended): the script aborts on 404 with no writes; the
`s3_to_azure` run with status 404 still uploads. -/
theorem C4_witness :
    (400 ≤ 404 ∧ 404 < 600 ∧ script_copy 404 [0, 1, 2] = Except.error ()) ∧
    (s3_to_azure_run "cont" "buck" "a.txt" none true true true false (fun _ => false)
        (fun _ => "Ab3xYz") 404 true 10
      = some ([Ev.dstCheck "a.txt" false, Ev.httpGet 404, Ev.uploadBlob "a.txt"],
          Outcome.ok
            { azure_storage_container_name := "cont"
              azure_storage_blob_name := "a.txt"
              aws_storage_bucket_name := "buck"
              aws_storage_object_key := "a.txt" }) ∧
      Ev.httpGet 404 ∈ [Ev.dstCheck "a.txt" false, Ev.httpGet 404, Ev.uploadBlob "a.txt"] ∧
      Ev.uploadBlob (S3AzureInfo.azure_storage_blob_name
          { azure_storage_container_name := "cont"
            azure_storage_blob_name := "a.txt"
            aws_storage_bucket_name := "buck"
            aws_storage_object_key := "a.txt" })
        ∈ [Ev.dstCheck "a.txt" false, Ev.httpGet 404, Ev.uploadBlob "a.txt"]) :=
  have h : s3_to_azure_run "cont" "buck" "a.txt" none true true true false (fun _ => false)
        (fun _ => "Ab3xYz") 404 true 10
      = some ([Ev.dstCheck "a.txt" false, Ev.httpGet 404, Ev.uploadBlob "a.txt"],
          Outcome.ok
            { azure_storage_container_name := "cont"
              azure_storage_blob_name := "a.txt"
              aws_storage_bucket_name := "buck"
              aws_storage_object_key := "a.txt" }) := by decide
  ⟨⟨by decide, by decide,
      C4_status_check_only_in_script.1 404 [0, 1, 2] (by decide) (by decide)⟩,
   h, C4_status_check_only_in_script.2.1 "cont" "buck" "a.txt" none true true true false
      (fun _ => false) (fun _ => "Ab3xYz") 404 true 10 _ _ h⟩

/-- C5 counterexample: in `azure_to_s3`'s collision loop, an existence check
that raises `ClientError` on every call (e.g. access denied) is caught by the
`except ClientError` clause and reinterpreted as "name free": resolution
returns success with the original candidate instead of propagating the
exception. -/
theorem C5_counterexample :
    azure_head_loop_exc (fun _ => HeadResult.clientError) "report.pdf"
        (fun _ => "Ab3xYz") "report.pdf" 0 10 = some (Except.ok "report.pdf") := rfl

/-- C5 (amended): in `s3_to_azure`, any exception raised by the destination
existence check or the destination delete during name resolution propagates
to the caller unhandled; in `azure_to_s3`, `ClientError` from `head_object`
is caught inside the loop and treated as the name being free, and only
exceptions other than `ClientError` propagate. -/
theorem C5_resolution_error_propagation :
    (∀ (ex : String → Except Unit Bool) (del : String → Except Unit Unit)
      (overwrite : Bool) (name0 : String) (ids : Nat → String) (fuel : Nat),
      ex name0 = Except.error () →
      s3_resolve_exc ex del overwrite name0 ids fuel = some (Except.error ())) ∧
    (∀ (ex : String → Except Unit Bool) (del : String → Except Unit Unit)
      (name0 : String) (ids : Nat → String) (fuel : Nat),
      ex name0 = Except.ok true → del name0 = Except.error () →
      s3_resolve_exc ex del true name0 ids fuel = some (Except.error ())) ∧
    (∀ (head : String → HeadResult) (orig : String) (ids : Nat → String)
      (cur : String) (i fuel : Nat),
      head cur = HeadResult.otherExc →
      azure_head_loop_exc head orig ids cur i fuel = some (Except.error ())) ∧
    (∀ (head : String → HeadResult) (orig : String) (ids : Nat → String)
      (cur : String) (i fuel : Nat),
      head cur = HeadResult.clientError →
      azure_head_loop_exc head orig ids cur i fuel = some (Except.ok cur)) := by
  refine ⟨?_, ?_, ?_, ?_⟩
  · intro ex del overwrite name0 ids fuel hx
    by_cases how : overwrite = true
    · simp [s3_resolve_exc, how, hx]
    · simp only [Bool.not_eq_true] at how
      cases fuel <;> simp [s3_resolve_exc, how, s3_collision_loop_exc, hx]
  · intro ex del name0 ids fuel hx hdel
    simp [s3_resolve_exc, hx, hdel]
  · intro head orig ids cur i fuel hh
    cases fuel <;> simp [azure_head_loop_exc, hh]
  · intro head orig ids cur i fuel hh
    cases fuel <;> simp [azure_head_loop_exc, hh]

/-- Witness for C5 (amended) at concrete inputs: an erroring `exists`
propagates in `s3_to_azure`; an erroring `delete_blob` propagates; a
non-ClientError exception propagates in `azure_to_s3`; a ClientError is
swallowed there. -/
theorem C5_witness :
    ((fun _ : String => (Except.error () : Except Unit Bool)) "report.pdf"
        = Except.error () ∧
      s3_resolve_exc (fun _ => Except.error ()) (fun _ => Except.ok ()) false
        "report.pdf" (fun _ => "Ab3xYz") 10 = some (Except.error ())) ∧
    ((fun _ : String => (Except.ok true : Except Unit Bool)) "report.pdf"
        = Except.ok true ∧
      (fun _ : String => (Except.error () : Except Unit Unit)) "report.pdf"
        = Except.error () ∧
      s3_resolve_exc (fun _ => Except.ok true) (fun _ => Except.error ()) true
        "report.pdf" (fun _ => "Ab3xYz") 10 = some (Except.error ())) ∧
    ((fun _ : String => HeadResult.otherExc) "report.pdf" = HeadResult.otherExc ∧
      azure_head_loop_exc (fun _ => HeadResult.otherExc) "report.pdf"
        (fun _ => "Ab3xYz") "report.pdf" 0 10 = some (Except.error ())) ∧
    ((fun _ : String => HeadResult.clientError) "report.pdf" = HeadResult.clientError ∧
      azure_head_loop_exc (fun _ => HeadResult.clientError) "report.pdf"
        (fun _ => "Ab3xYz") "report.pdf" 0 10 = some (Except.ok "report.pdf")) :=
  ⟨⟨rfl, C5_resolution_error_propagation.1 (fun _ => Except.error ())
      (fun _ => Except.ok ()) false "report.pdf" (fun _ => "Ab3xYz") 10 rfl⟩,
   ⟨rfl, rfl, C5_resolution_error_propagation.2.1 (fun _ => Except.ok true)
      (fun _ => Except.error ()) "report.pdf" (fun _ => "Ab3xYz") 10 rfl rfl⟩,
   ⟨rfl, C5_resolution_error_propagation.2.2.1 (fun _ => HeadResult.otherExc)
      "report.pdf" (fun _ => "Ab3xYz") "report.pdf" 0 10 rfl⟩,
   ⟨rfl, C5_resolution_error_propagation.2.2.2 (fun _ => HeadResult.clientError)
      "report.pdf" (fun _ => "Ab3xYz") "report.pdf" 0 10 rfl⟩⟩

theorem s3_rest_char
    (container bucket key name0 : String) (presignEvs : List Ev)
    (overwrite deleteAfter : Bool) (ex : String → Bool) (ids : Nat → String)
    (status : Nat) (uploadOk : Bool) (fuel : Nat) (evs : List Ev)
    (out : Outcome S3AzureInfo)
    (h : s3_to_azure_rest container bucket key name0 presignEvs overwrite deleteAfter
        ex ids status uploadOk fuel = some (evs, out)) :
    ∃ resEvs final,
      (∀ e ∈ resEvs, (∃ m bo, e = Ev.dstCheck m bo) ∨ e = Ev.deleteDest name0) ∧
      ((uploadOk = true ∧
          evs = (presignEvs ++ resEvs ++ [Ev.httpGet status, Ev.uploadBlob final])
              ++ (if deleteAfter = true then [Ev.deleteSource key] else []) ∧
          out = Outcome.ok
            { azure_storage_container_name := container
              azure_storage_blob_name := final
              aws_storage_bucket_name := bucket
              aws_storage_object_key := key }) ∨
       (uploadOk = false ∧
          evs = presignEvs ++ resEvs ++ [Ev.httpGet status, Ev.uploadBlob final] ∧
          out = Outcome.raised)) := by
  simp only [s3_to_azure_rest] at h
  by_cases how : overwrite = true
  · simp only [how, if_true] at h
    by_cases hex : ex name0 = true
    · simp only [hex, if_true] at h
      refine ⟨[Ev.dstCheck name0 true, Ev.deleteDest name0], name0, ?_, ?_⟩
      · intro e he
        rcases List.mem_cons.mp he with h1 | h1
        · exact Or.inl ⟨name0, true, h1⟩
        · simp only [List.mem_singleton] at h1
          exact Or.inr h1
      · by_cases hup : uploadOk = true
        · simp only [hup, if_true, Option.some.injEq, Prod.mk.injEq] at h
          exact Or.inl ⟨hup, h.1.symm, h.2.symm⟩
        · simp only [Bool.not_eq_true] at hup
          simp only [hup, Bool.false_eq_true, if_false, Option.some.injEq,
            Prod.mk.injEq] at h
          exact Or.inr ⟨hup, h.1.symm, h.2.symm⟩
    · simp only [Bool.not_eq_true] at hex
      simp only [hex, Bool.false_eq_true, if_false] at h
      refine ⟨[Ev.dstCheck name0 false], name0, ?_, ?_⟩
      · intro e he
        simp only [List.mem_singleton] at he
        exact Or.inl ⟨name0, false, he⟩
      · by_cases hup : uploadOk = true
        · simp only [hup, if_true, Option.some.injEq, Prod.mk.injEq] at h
          exact Or.inl ⟨hup, h.1.symm, h.2.symm⟩
        · simp only [Bool.not_eq_true] at hup
          simp only [hup, Bool.false_eq_true, if_false, Option.some.injEq,
            Prod.mk.injEq] at h
          exact Or.inr ⟨hup, h.1.symm, h.2.symm⟩
  · simp only [Bool.not_eq_true] at how
    simp only [how, Bool.false_eq_true, if_false] at h
    cases hloop : s3_collision_loop ex name0 ids name0 0 fuel with
    | none => rw [hloop] at h; simp at h
    | some p =>
      obtain ⟨resEvs, final⟩ := p
      rw [hloop] at h
      obtain ⟨-, hall⟩ := s3_collision_loop_spec ex name0 ids fuel name0 0 resEvs final hloop
      refine ⟨resEvs, final, ?_, ?_⟩
      · intro e he
        obtain ⟨m, hm⟩ := hall e he
        exact Or.inl ⟨m, ex m, hm⟩
      · by_cases hup : uploadOk = true
        · simp only [hup, if_true, Option.some.injEq, Prod.mk.injEq] at h
          exact Or.inl ⟨hup, h.1.symm, h.2.symm⟩
        · simp only [Bool.not_eq_true] at hup
          simp only [hup, Bool.false_eq_true, if_false, Option.some.injEq,
            Prod.mk.injEq] at h
          exact Or.inr ⟨hup, h.1.symm, h.2.symm⟩

theorem azure_run_char
    (container bucket blob : String) (awsKey? : Option String)
    (overwrite deleteAfter : Bool) (exDst exSrc : String → Bool) (ids : Nat → String)
    (status : Nat) (uploadOk : Bool) (expiration fuel : Nat) (evs : List Ev)
    (out : Outcome AzureS3Info)
    (h : azure_to_s3_run container bucket blob awsKey? overwrite deleteAfter exDst exSrc
        ids status uploadOk expiration fuel = some (evs, out)) :
    ∃ resEvs final,
      (∀ e ∈ resEvs, ∃ m bo, e = Ev.dstCheck m bo) ∧
      ((uploadOk = true ∧
          evs = ([Ev.sasGenerate expiration, Ev.httpGet status] ++ resEvs
                ++ [Ev.uploadFileobj final])
              ++ (if deleteAfter = true then
                    (if exSrc blob = true then
                      [Ev.srcCheck blob true, Ev.deleteSrcBlob blob]
                    else [Ev.srcCheck blob false])
                  else []) ∧
          out = Outcome.ok
            { aws_storage_bucket_name := bucket
              aws_storage_object_key := final
              azure_storage_container_name := container
              azure_storage_blob_name := blob }) ∨
       (uploadOk = false ∧
          evs = [Ev.sasGenerate expiration, Ev.httpGet status] ++ resEvs
              ++ [Ev.uploadFileobj final] ∧
          out = Outcome.raised)) := by
  simp only [azure_to_s3_run] at h
  by_cases how : overwrite = true
  · simp only [how, if_true] at h
    refine ⟨[], awsKey?.getD blob, by simp, ?_⟩
    by_cases hup : uploadOk = true
    · simp only [hup, if_true, Option.some.injEq, Prod.mk.injEq] at h
      exact Or.inl ⟨hup, h.1.symm, h.2.symm⟩
    · simp only [Bool.not_eq_true] at hup
      simp only [hup, Bool.false_eq_true, if_false, Option.some.injEq,
        Prod.mk.injEq] at h
      exact Or.inr ⟨hup, h.1.symm, h.2.symm⟩
  · simp only [Bool.not_eq_true] at how
    simp only [how, Bool.false_eq_true, if_false] at h
    cases hloop : azure_head_loop exDst (awsKey?.getD blob) ids (awsKey?.getD blob) 0 fuel with
    | none => rw [hloop] at h; simp at h
    | some p =>
      obtain ⟨resEvs, final⟩ := p
      rw [hloop] at h
      obtain ⟨-, hall⟩ := azure_head_loop_spec exDst _ ids fuel _ 0 resEvs final hloop
      refine ⟨resEvs, final, ?_, ?_⟩
      · intro e he
        obtain ⟨m, hm⟩ := hall e he
        exact ⟨m, exDst m, hm⟩
      · by_cases hup : uploadOk = true
        · simp only [hup, if_true, Option.some.injEq, Prod.mk.injEq] at h
          exact Or.inl ⟨hup, h.1.symm, h.2.symm⟩
        · simp only [Bool.not_eq_true] at hup
          simp only [hup, Bool.false_eq_true, if_false, Option.some.injEq,
            Prod.mk.injEq] at h
          exact Or.inr ⟨hup, h.1.symm, h.2.symm⟩

theorem s3_run_char
    (container bucket key : String) (blobName? : Option String)
    (public presignOk overwrite deleteAfter : Bool) (ex : String → Bool)
    (ids : Nat → String) (status : Nat) (uploadOk : Bool) (fuel : Nat)
    (evs : List Ev) (out : Outcome S3AzureInfo)
    (h : s3_to_azure_run container bucket key blobName? public presignOk overwrite
        deleteAfter ex ids status uploadOk fuel = some (evs, out)) :
    (evs = [Ev.presign] ∧ out = Outcome.returnedNone) ∨
    ∃ presignEvs, (presignEvs = [] ∨ presignEvs = [Ev.presign]) ∧
    ∃ resEvs final,
      (∀ e ∈ resEvs,
        (∃ m bo, e = Ev.dstCheck m bo) ∨ e = Ev.deleteDest (blobName?.getD key)) ∧
      ((uploadOk = true ∧
          evs = (presignEvs ++ resEvs ++ [Ev.httpGet status, Ev.uploadBlob final])
              ++ (if deleteAfter = true then [Ev.deleteSource key] else []) ∧
          out = Outcome.ok
            { azure_storage_container_name := container
              azure_storage_blob_name := final
              aws_storage_bucket_name := bucket
              aws_storage_object_key := key }) ∨
       (uploadOk = false ∧
          evs = presignEvs ++ resEvs ++ [Ev.httpGet status, Ev.uploadBlob final] ∧
          out = Outcome.raised)) := by
  simp only [s3_to_azure_run] at h
  by_cases hpub : public = true
  · simp only [hpub, if_true] at h
    exact Or.inr ⟨[], Or.inl rfl, s3_rest_char _ _ _ _ _ _ _ _ _ _ _ _ _ _ h⟩
  · simp only [Bool.not_eq_true] at hpub
    simp only [hpub, Bool.false_eq_true, if_false] at h
    by_cases hps : presignOk = true
    · simp only [hps, if_true] at h
      exact Or.inr ⟨[Ev.presign], Or.inr rfl, s3_rest_char _ _ _ _ _ _ _ _ _ _ _ _ _ _ h⟩
    · simp only [Bool.not_eq_true] at hps
      simp only [hps, Bool.false_eq_true, if_false, Option.some.injEq,
        Prod.mk.injEq] at h
      exact Or.inl ⟨h.1.symm, h.2.symm⟩

theorem s3_run_delete_source_spec
    (container bucket key : String) (blobName? : Option String)
    (public presignOk overwrite deleteAfter : Bool) (ex : String → Bool)
    (ids : Nat → String) (status : Nat) (uploadOk : Bool) (fuel : Nat)
    (evs : List Ev) (out : Outcome S3AzureInfo)
    (h : s3_to_azure_run container bucket key blobName? public presignOk overwrite
        deleteAfter ex ids status uploadOk fuel = some (evs, out)) :
    (Ev.deleteSource key ∈ evs ↔ (deleteAfter = true ∧ ∃ info, out = Outcome.ok info)) ∧
    (Ev.deleteSource key ∈ evs →
      ∃ pre, evs = pre ++ [Ev.deleteSource key] ∧ (∃ n, Ev.uploadBlob n ∈ pre) ∧
        Ev.deleteSource key ∉ pre) := by
  rcases s3_run_char container bucket key blobName? public presignOk overwrite deleteAfter
      ex ids status uploadOk fuel evs out h with
    ⟨hevs, hout⟩ | ⟨pEvs, hp, resEvs, final, hres, hcase⟩
  · subst hevs; subst hout
    refine ⟨⟨fun hmem => by simp at hmem, ?_⟩, fun hmem => by simp at hmem⟩
    rintro ⟨-, info, hinfo⟩
    exact Outcome.noConfusion hinfo
  · have hpno : Ev.deleteSource key ∉ pEvs := by
      rcases hp with rfl | rfl <;> simp
    have hrno : Ev.deleteSource key ∉ resEvs := by
      intro hmem
      rcases hres _ hmem with ⟨m, bo, he⟩ | he <;> exact Ev.noConfusion he
    have hmid : Ev.deleteSource key
        ∉ pEvs ++ resEvs ++ [Ev.httpGet status, Ev.uploadBlob final] := by
      intro hc
      rcases List.mem_append.mp hc with hc | hc
      · rcases List.mem_append.mp hc with hc | hc
        · exact hpno hc
        · exact hrno hc
      · simp at hc
    rcases hcase with ⟨hup, hevs, hout⟩ | ⟨hup, hevs, hout⟩
    · subst hevs; subst hout
      by_cases hdA : deleteAfter = true
      · simp only [hdA, if_true]
        constructor
        · constructor
          · intro _
            exact ⟨trivial, _, rfl⟩
          · intro _
            refine List.mem_append.mpr (Or.inr ?_)
            simp
        · intro hmem
          refine ⟨pEvs ++ resEvs ++ [Ev.httpGet status, Ev.uploadBlob final], ?_,
            ⟨final, by simp⟩, ?_⟩
          · simp
          · intro hc
            rcases List.mem_append.mp hc with hc | hc
            · rcases List.mem_append.mp hc with hc2 | hc2
              · exact hpno hc2
              · exact hrno hc2
            · simp at hc
      · simp only [Bool.not_eq_true] at hdA
        simp only [hdA, Bool.false_eq_true, if_false, List.append_nil]
        constructor
        · constructor
          · intro hmem
            rcases List.mem_append.mp hmem with hc | hc
            · rcases List.mem_append.mp hc with hc2 | hc2
              · exact absurd hc2 hpno
              · exact absurd hc2 hrno
            · simp at hc
          · rintro ⟨hdA2, -⟩
            exact hdA2.elim
        · intro hmem
          exact absurd hmem hmid
    · subst hevs; subst hout
      constructor
      · constructor
        · intro hmem
          exact absurd hmem hmid
        · rintro ⟨-, info, hinfo⟩
          exact Outcome.noConfusion hinfo
      · intro hmem
        exact absurd hmem hmid

theorem azure_run_delete_source_spec
    (container bucket blob : String) (awsKey? : Option String)
    (overwrite deleteAfter : Bool) (exDst exSrc : String → Bool) (ids : Nat → String)
    (status : Nat) (uploadOk : Bool) (expiration fuel : Nat)
    (evs : List Ev) (out : Outcome AzureS3Info)
    (hsrc : exSrc blob = true)
    (h : azure_to_s3_run container bucket blob awsKey? overwrite deleteAfter exDst exSrc
        ids status uploadOk expiration fuel = some (evs, out)) :
    (Ev.deleteSrcBlob blob ∈ evs ↔ (deleteAfter = true ∧ ∃ info, out = Outcome.ok info)) ∧
    (Ev.deleteSrcBlob blob ∈ evs →
      ∃ pre, evs = pre ++ [Ev.deleteSrcBlob blob] ∧ (∃ n, Ev.uploadFileobj n ∈ pre) ∧
        Ev.deleteSrcBlob blob ∉ pre) := by
  rcases azure_run_char container bucket blob awsKey? overwrite deleteAfter exDst exSrc
      ids status uploadOk expiration fuel evs out h with ⟨resEvs, final, hres, hcase⟩
  have hrno : Ev.deleteSrcBlob blob ∉ resEvs := by
    intro hmem
    obtain ⟨m, bo, he⟩ := hres _ hmem
    exact Ev.noConfusion he
  have hmid : Ev.deleteSrcBlob blob
      ∉ [Ev.sasGenerate expiration, Ev.httpGet status] ++ resEvs
        ++ [Ev.uploadFileobj final] := by
    intro hc
    rcases List.mem_append.mp hc with hc | hc
    · rcases List.mem_append.mp hc with hc2 | hc2
      · simp at hc2
      · exact hrno hc2
    · simp at hc
  rcases hcase with ⟨hup, hevs, hout⟩ | ⟨hup, hevs, hout⟩
  · subst hevs; subst hout
    by_cases hdA : deleteAfter = true
    · simp only [hdA, if_true, hsrc]
      constructor
      · constructor
        · intro _
          exact ⟨trivial, _, rfl⟩
        · intro _
          refine List.mem_append.mpr (Or.inr ?_)
          simp
      · intro hmem
        refine ⟨([Ev.sasGenerate expiration, Ev.httpGet status] ++ resEvs
            ++ [Ev.uploadFileobj final]) ++ [Ev.srcCheck blob true], ?_,
          ⟨final, by simp⟩, ?_⟩
        · simp
        · intro hc
          rcases List.mem_append.mp hc with hc | hc
          · exact hmid hc
          · simp at hc
    · simp only [Bool.not_eq_true] at hdA
      simp only [hdA, Bool.false_eq_true, if_false, List.append_nil]
      constructor
      · constructor
        · intro hmem
          exact absurd hmem hmid
        · rintro ⟨hdA2, -⟩
          exact hdA2.elim
      · intro hmem
        exact absurd hmem hmid
  · subst hevs; subst hout
    constructor
    · constructor
      · intro hmem
        exact absurd hmem hmid
      · rintro ⟨-, info, hinfo⟩
        exact Outcome.noConfusion hinfo
    · intro hmem
      exact absurd hmem hmid

/-- C8: in each direction the source object is deleted exactly when the
delete-after-transfer flag is set and the upload completed; the delete is a
single call issued only after the upload, and with the flag unset the source
is never deleted.  (`azure_to_s3` additionally guards its delete with a
source existence check, so its statement assumes the source blob exists —
which it must for the transfer to have read it.) -/
theorem C8_source_deleted_iff_flag_after_upload :
    (∀ (container bucket key : String) (blobName? : Option String)
      (public presignOk overwrite deleteAfter : Bool) (ex : String → Bool)
      (ids : Nat → String) (status : Nat) (uploadOk : Bool) (fuel : Nat)
      (evs : List Ev) (out : Outcome S3AzureInfo),
      s3_to_azure_run container bucket key blobName? public presignOk overwrite
          deleteAfter ex ids status uploadOk fuel = some (evs, out) →
      (Ev.deleteSource key ∈ evs ↔ (deleteAfter = true ∧ ∃ info, out = Outcome.ok info)) ∧
      (Ev.deleteSource key ∈ evs →
        ∃ pre, evs = pre ++ [Ev.deleteSource key] ∧ (∃ n, Ev.uploadBlob n ∈ pre) ∧
          Ev.deleteSource key ∉ pre)) ∧
    (∀ (container bucket blob : String) (awsKey? : Option String)
      (overwrite deleteAfter : Bool) (exDst exSrc : String → Bool) (ids : Nat → String)
      (status : Nat) (uploadOk : Bool) (expiration fuel : Nat)
      (evs : List Ev) (out : Outcome AzureS3Info),
      exSrc blob = true →
      azure_to_s3_run container bucket blob awsKey? overwrite deleteAfter exDst exSrc
          ids status uploadOk expiration fuel = some (evs, out) →
      (Ev.deleteSrcBlob blob ∈ evs ↔ (deleteAfter = true ∧ ∃ info, out = Outcome.ok info)) ∧
      (Ev.deleteSrcBlob blob ∈ evs →
        ∃ pre, evs = pre ++ [Ev.deleteSrcBlob blob] ∧ (∃ n, Ev.uploadFileobj n ∈ pre) ∧
          Ev.deleteSrcBlob blob ∉ pre)) :=
  ⟨fun container bucket key blobName? public presignOk overwrite deleteAfter ex ids
      status uploadOk fuel evs out h =>
    s3_run_delete_source_spec container bucket key blobName? public presignOk overwrite
      deleteAfter ex ids status uploadOk fuel evs out h,
   fun container bucket blob awsKey? overwrite deleteAfter exDst exSrc ids status
      uploadOk expiration fuel evs out hsrc h =>
    azure_run_delete_source_spec container bucket blob awsKey? overwrite deleteAfter
      exDst exSrc ids status uploadOk expiration fuel evs out hsrc h⟩

/-- Witness for C8 at concrete inputs: an `s3_to_azure` run with the flag set
deletes the source exactly once, after the upload; an `azure_to_s3` run with
the flag set and an existing source blob does likewise. -/
theorem C8_witness :
    (s3_to_azure_run "cont" "buck" "a.txt" none true true false true (fun _ => false)
        (fun _ => "Ab3xYz") 200 true 1
      = some ([Ev.dstCheck "a.txt" false, Ev.httpGet 200, Ev.uploadBlob "a.txt",
               Ev.deleteSource "a.txt"],
          Outcome.ok
            { azure_storage_container_name := "cont"
              azure_storage_blob_name := "a.txt"
              aws_storage_bucket_name := "buck"
              aws_storage_object_key := "a.txt" }) ∧
      ((Ev.deleteSource "a.txt"
          ∈ [Ev.dstCheck "a.txt" false, Ev.httpGet 200, Ev.uploadBlob "a.txt",
             Ev.deleteSource "a.txt"]
        ↔ (true = true ∧ ∃ info,
            (Outcome.ok
              { azure_storage_container_name := "cont"
                azure_storage_blob_name := "a.txt"
                aws_storage_bucket_name := "buck"
                aws_storage_object_key := "a.txt" } : Outcome S3AzureInfo)
              = Outcome.ok info)) ∧
       (Ev.deleteSource "a.txt"
          ∈ [Ev.dstCheck "a.txt" false, Ev.httpGet 200, Ev.uploadBlob "a.txt",
             Ev.deleteSource "a.txt"] →
        ∃ pre,
          [Ev.dstCheck "a.txt" false, Ev.httpGet 200, Ev.uploadBlob "a.txt",
           Ev.deleteSource "a.txt"] = pre ++ [Ev.deleteSource "a.txt"] ∧
          (∃ n, Ev.uploadBlob n ∈ pre) ∧ Ev.deleteSource "a.txt" ∉ pre))) ∧
    ((fun n => n == "b.txt") "b.txt" = true ∧
      azure_to_s3_run "cont" "buck" "b.txt" none false true (fun _ => false)
          (fun n => n == "b.txt") (fun _ => "Ab3xYz") 200 true 3600 1
        = some ([Ev.sasGenerate 3600, Ev.httpGet 200, Ev.dstCheck "b.txt" false,
                 Ev.uploadFileobj "b.txt", Ev.srcCheck "b.txt" true,
                 Ev.deleteSrcBlob "b.txt"],
            Outcome.ok
              { aws_storage_bucket_name := "buck"
                aws_storage_object_key := "b.txt"
                azure_storage_container_name := "cont"
                azure_storage_blob_name := "b.txt" }) ∧
      ((Ev.deleteSrcBlob "b.txt"
          ∈ [Ev.sasGenerate 3600, Ev.httpGet 200, Ev.dstCheck "b.txt" false,
             Ev.uploadFileobj "b.txt", Ev.srcCheck "b.txt" true,
             Ev.deleteSrcBlob "b.txt"]
        ↔ (true = true ∧ ∃ info,
            (Outcome.ok
              { aws_storage_bucket_name := "buck"
                aws_storage_object_key := "b.txt"
                azure_storage_container_name := "cont"
                azure_storage_blob_name := "b.txt" } : Outcome AzureS3Info)
              = Outcome.ok info)) ∧
       (Ev.deleteSrcBlob "b.txt"
          ∈ [Ev.sasGenerate 3600, Ev.httpGet 200, Ev.dstCheck "b.txt" false,
             Ev.uploadFileobj "b.txt", Ev.srcCheck "b.txt" true,
             Ev.deleteSrcBlob "b.txt"] →
        ∃ pre,
          [Ev.sasGenerate 3600, Ev.httpGet 200, Ev.dstCheck "b.txt" false,
           Ev.uploadFileobj "b.txt", Ev.srcCheck "b.txt" true,
           Ev.deleteSrcBlob "b.txt"] = pre ++ [Ev.deleteSrcBlob "b.txt"] ∧
          (∃ n, Ev.uploadFileobj n ∈ pre) ∧ Ev.deleteSrcBlob "b.txt" ∉ pre))) :=
  have h1 : s3_to_azure_run "cont" "buck" "a.txt" none true true false true
        (fun _ => false) (fun _ => "Ab3xYz") 200 true 1
      = some ([Ev.dstCheck "a.txt" false, Ev.httpGet 200, Ev.uploadBlob "a.txt",
               Ev.deleteSource "a.txt"],
          Outcome.ok
            { azure_storage_container_name := "cont"
              azure_storage_blob_name := "a.txt"
              aws_storage_bucket_name := "buck"
              aws_storage_object_key := "a.txt" }) := by decide
  have h2 : azure_to_s3_run "cont" "buck" "b.txt" none false true (fun _ => false)
        (fun n => n == "b.txt") (fun _ => "Ab3xYz") 200 true 3600 1
      = some ([Ev.sasGenerate 3600, Ev.httpGet 200, Ev.dstCheck "b.txt" false,
               Ev.uploadFileobj "b.txt", Ev.srcCheck "b.txt" true,
               Ev.deleteSrcBlob "b.txt"],
          Outcome.ok
            { aws_storage_bucket_name := "buck"
              aws_storage_object_key := "b.txt"
              azure_storage_container_name := "cont"
              azure_storage_blob_name := "b.txt" }) := by decide
  ⟨⟨h1, C8_source_deleted_iff_flag_after_upload.1 "cont" "buck" "a.txt" none true true
      false true (fun _ => false) (fun _ => "Ab3xYz") 200 true 1 _ _ h1⟩,
   ⟨by decide, h2, C8_source_deleted_iff_flag_after_upload.2 "cont" "buck" "b.txt" none
      false true (fun _ => false) (fun n => n == "b.txt") (fun _ => "Ab3xYz") 200 true
      3600 1 _ _ (by decide) h2⟩⟩
